import Mathlib

/-!
Verification of the EGG-1060-Weather sketches.

The repository holds two Arduino sketches:

* `src/Water_level_rain_on-off.ino`: reads the analog pin `A2` each loop
  iteration, prints "rain" when the reading is strictly greater than 10 and
  "no rain" otherwise, then delays 500 ms.
* `src/unnamed/part_000`: a combined sketch that first reads an analog pin,
  prints the raw value and delays 100 ms (photoresistor section), then reads
  again, prints the threshold classification and delays 500 ms (water-level
  section).  Its two global pin declarations reuse the single identifier
  `sensorPin` for two different pins (`A2` then `A1`), and the loop body
  declares `sensorValue` twice.

We embed the observable behaviour of the sketches as a trace of events
(serial-begin, one printed line, one delay).  An `analogRead` call is an
environmental input: the environment is a stream `reads : Nat -> Int` giving
the value returned by the k-th `analogRead` call of the run, in program order.
-/

namespace Weather

/-- Arduino analog pin constant `A1` (pin number on the target board). -/
def A1 : Nat := 15

/-- Arduino analog pin constant `A2` (pin number on the target board). -/
def A2 : Nat := 16

/-- One observable event of a sketch run: `Serial.begin(baud)`, one line
written by `Serial.println`, or one `delay(ms)` call. -/
inductive Event
  | serialBegin (baud : Nat)
  | println (line : String)
  | delayMs (ms : Nat)
deriving DecidableEq, Repr

/-- The digit loop of Arduino `Print::printNumber(n, 10)`: emit the decimal
digits of `n`, most significant first, at least one digit. -/
def printNumber (n : Nat) : List Char :=
  if h : n < 10 then [Char.ofNat (48 + n % 10)]
  else printNumber (n / 10) ++ [Char.ofNat (48 + n % 10)]
termination_by n
decreasing_by exact Nat.div_lt_self (by omega) (by omega)

/-- Arduino `Print::print(long)`: a minus sign for negative values, then the
decimal digits of the absolute value. -/
def printIntChars (v : Int) : List Char :=
  if v < 0 then '-' :: printNumber v.natAbs else printNumber v.natAbs

/-- The text `Serial.println(sensorValue)` puts on the line for value `v`. -/
def printInt (v : Int) : String := ⟨printIntChars v⟩

/-- `Serial.println` terminates the line text with a carriage return and a
newline on the wire. -/
def serialPrintlnBytes (s : String) : String := s ++ "\r\n"

/-- The threshold classification of `loop()` in both sketches:
`if (sensorValue > 10) Serial.println("rain"); else Serial.println("no rain");` -/
def classify (sensorValue : Int) : String :=
  if sensorValue > 10 then "rain" else "no rain"

/-- Global of `Water_level_rain_on-off.ino`: `const int sensorPin = A2;`. -/
def sensorPin : Nat := A2

/-- `setup()` of both sketches: `Serial.begin(9600);`. -/
def setupEvents : List Event := [Event.serialBegin 9600]

/-- One iteration of `loop()` of `Water_level_rain_on-off.ino`, given the
value returned by its single `analogRead(sensorPin)` call: print the
classification, then `delay(500)`. -/
def loopBody1 (sensorValue : Int) : List Event :=
  [Event.println (classify sensorValue), Event.delayMs 500]

/-- The events of the first `n` iterations of `loop()` of
`Water_level_rain_on-off.ino`; iteration `k` consumes read `k`. -/
def runIters1 (reads : Nat → Int) : Nat → List Event
  | 0 => []
  | n + 1 => runIters1 reads n ++ loopBody1 (reads n)

/-- The whole observable trace of `Water_level_rain_on-off.ino` after `n`
loop iterations: `setup()` once, then the iterations. -/
def trace1 (reads : Nat → Int) (n : Nat) : List Event :=
  setupEvents ++ runIters1 reads n

/-- The global declarations of `src/unnamed/part_000`, in source order:
`const int sensorPin = A2;` then `const int sensorPin = A1;` — the same
identifier bound twice. -/
def globalDecls : List (String × Nat) := [("sensorPin", A2), ("sensorPin", A1)]

/-- The identifiers the two `analogRead` calls of `part_000`'s loop body
name, in program order: both are the literal identifier `sensorPin`. -/
def loopReadNames : List String := ["sensorPin", "sensorPin"]

/-- One iteration of `loop()` of `src/unnamed/part_000`, given the values
returned by its two `analogRead` calls: print the first value raw and
`delay(100)` (photoresistor section), then print the classification of the
second value and `delay(500)` (water-level section). -/
def loopBody2 (photoValue waterValue : Int) : List Event :=
  [Event.println (printInt photoValue), Event.delayMs 100,
   Event.println (classify waterValue), Event.delayMs 500]

/-- The events of the first `n` iterations of `loop()` of `part_000`;
iteration `k` consumes reads `2k` (photoresistor section) and `2k+1`
(water-level section), in call order. -/
def runIters2 (reads : Nat → Int) : Nat → List Event
  | 0 => []
  | n + 1 => runIters2 reads n ++ loopBody2 (reads (2 * n)) (reads (2 * n + 1))

/-- The whole observable trace of `part_000` after `n` loop iterations. -/
def trace2 (reads : Nat → Int) (n : Nat) : List Event :=
  setupEvents ++ runIters2 reads n

/-- The lines printed in a trace, in order. -/
def linesOf (t : List Event) : List String :=
  t.filterMap fun e => match e with
    | Event.println s => some s
    | _ => none

/-- The delay durations of a trace, in order. -/
def delaysOf (t : List Event) : List Nat :=
  t.filterMap fun e => match e with
    | Event.delayMs ms => some ms
    | _ => none

/-- Whether an event is a `Serial.begin`. -/
def isSerialBegin : Event → Bool
  | Event.serialBegin _ => true
  | _ => false

/-- The numeric value of a list of decimal digit characters. -/
def digitVal (l : List Char) : Nat :=
  l.foldl (fun a c => 10 * a + (c.toNat - 48)) 0

/-- Stated from the spec: `s` is exactly the decimal text representation of
the integer `v` — an optional minus sign for negative `v`, then a nonempty
run of decimal digit characters with no leading zero (except for the single
digit `0` itself) whose base-10 value is `|v|`. -/
def IsDecimalRepr (s : String) (v : Int) : Prop :=
  ∃ digits : List Char,
    (if v < 0 then s.data = '-' :: digits else s.data = digits) ∧
    digits ≠ [] ∧
    (∀ c ∈ digits, c.isDigit = true) ∧
    (digits.head? = some '0' → digits = ['0']) ∧
    (digitVal digits : Int) = |v|

theorem printNumber_small {n : Nat} (h : n < 10) :
    printNumber n = [Char.ofNat (48 + n % 10)] := by
  rw [printNumber]
  simp [h]

theorem printNumber_large {n : Nat} (h : ¬ n < 10) :
    printNumber n = printNumber (n / 10) ++ [Char.ofNat (48 + n % 10)] := by
  rw [printNumber]
  simp [h]

theorem toNat_ofNat_digit {d : Nat} (hd : d < 10) :
    (Char.ofNat (48 + d)).toNat = 48 + d := by
  interval_cases d <;> decide

theorem isDigit_ofNat_digit {d : Nat} (hd : d < 10) :
    (Char.ofNat (48 + d)).isDigit = true := by
  interval_cases d <;> decide

theorem ofNat_digit_ne_zero {d : Nat} (hd0 : 0 < d) (hd : d < 10) :
    Char.ofNat (48 + d) ≠ '0' := by
  interval_cases d <;> decide

theorem printNumber_ne_nil (n : Nat) : printNumber n ≠ [] := by
  by_cases h : n < 10
  · rw [printNumber_small h]
    simp
  · rw [printNumber_large h]
    simp

theorem printNumber_digits (n : Nat) : ∀ c ∈ printNumber n, c.isDigit = true := by
  induction n using Nat.strong_induction_on with
  | _ n ih =>
    by_cases h : n < 10
    · rw [printNumber_small h]
      intro c hc
      rw [List.mem_singleton] at hc
      subst hc
      exact isDigit_ofNat_digit (Nat.mod_lt n (by omega))
    · rw [printNumber_large h]
      intro c hc
      rcases List.mem_append.mp hc with hc | hc
      · exact ih (n / 10) (Nat.div_lt_self (by omega) (by omega)) c hc
      · rw [List.mem_singleton] at hc
        subst hc
        exact isDigit_ofNat_digit (Nat.mod_lt n (by omega))

theorem printNumber_head_pos (n : Nat) (hn : 0 < n) :
    (printNumber n).head? ≠ some '0' := by
  induction n using Nat.strong_induction_on with
  | _ n ih =>
    by_cases h : n < 10
    · rw [printNumber_small h]
      have hmod : n % 10 = n := Nat.mod_eq_of_lt h
      rw [hmod]
      intro hc
      rw [List.head?_cons] at hc
      exact ofNat_digit_ne_zero hn h (Option.some.inj hc)
    · rw [printNumber_large h]
      have hq : 0 < n / 10 := Nat.div_pos (by omega) (by omega)
      have hlt : n / 10 < n := Nat.div_lt_self (by omega) (by omega)
      obtain ⟨a, l, ha⟩ := List.exists_cons_of_ne_nil (printNumber_ne_nil (n / 10))
      have hhead := ih (n / 10) hlt hq
      rw [ha] at hhead ⊢
      simpa using hhead

theorem digitVal_append (l : List Char) (c : Char) :
    digitVal (l ++ [c]) = 10 * digitVal l + (c.toNat - 48) := by
  simp [digitVal, List.foldl_append]

theorem digitVal_printNumber (n : Nat) : digitVal (printNumber n) = n := by
  induction n using Nat.strong_induction_on with
  | _ n ih =>
    by_cases h : n < 10
    · rw [printNumber_small h]
      have ht : (Char.ofNat (48 + n % 10)).toNat = 48 + n % 10 :=
        toNat_ofNat_digit (Nat.mod_lt n (by omega))
      simp only [digitVal, List.foldl_cons, List.foldl_nil, ht]
      omega
    · rw [printNumber_large h, digitVal_append,
        ih (n / 10) (Nat.div_lt_self (by omega) (by omega)),
        toNat_ofNat_digit (Nat.mod_lt n (by omega) : n % 10 < 10)]
      omega

theorem printNumber_zero : printNumber 0 = ['0'] := by
  rw [printNumber_small (by omega)]

theorem isDecimalRepr_printInt (v : Int) : IsDecimalRepr (printInt v) v := by
  refine ⟨printNumber v.natAbs, ?_, printNumber_ne_nil _, printNumber_digits _, ?_, ?_⟩
  · by_cases hv : v < 0 <;> simp [printInt, printIntChars, hv, String.data]
  · intro hhead
    rcases Nat.eq_zero_or_pos v.natAbs with h0 | hpos
    · rw [h0, printNumber_zero]
    · exact absurd hhead (printNumber_head_pos _ hpos)
  · rw [digitVal_printNumber]
    exact (Int.abs_eq_natAbs v).symm

/-- Claim C2: in raw-value mode the photoresistor section of part_000 prints
exactly the decimal text representation of the reading, with no
transformation applied, and the line is newline-terminated on the wire. -/
theorem raw_mode_prints_decimal (photoValue waterValue : Int) :
    (linesOf (loopBody2 photoValue waterValue)).head? = some (printInt photoValue) ∧
    IsDecimalRepr (printInt photoValue) photoValue ∧
    serialPrintlnBytes (printInt photoValue) = printInt photoValue ++ "\r\n" :=
  ⟨rfl, isDecimalRepr_printInt photoValue, rfl⟩

/-- Claim C1: the threshold classification emits "rain" iff the reading is
strictly greater than 10, emits "no rain" iff the reading is at most 10, and
in particular classifies a reading of exactly 10 as "no rain". -/
theorem classify_rain_iff (v : Int) :
    (classify v = "rain" ↔ v > 10) ∧ (classify v = "no rain" ↔ v ≤ 10) ∧
    classify 10 = "no rain" := by
  refine ⟨?_, ?_, by decide⟩ <;>
    · unfold classify
      by_cases h : v > 10 <;> simp [h] <;> omega

/-- Claim C10: the threshold classification is monotone in the reading: for
readings `v1 ≤ v2`, if `v1` classifies as "rain" then so does `v2`, and if
`v2` classifies as "no rain" then so does `v1`. -/
theorem classify_monotone (v1 v2 : Int) (h : v1 ≤ v2) :
    (classify v1 = "rain" → classify v2 = "rain") ∧
    (classify v2 = "no rain" → classify v1 = "no rain") := by
  unfold classify
  by_cases h1 : v1 > 10 <;> by_cases h2 : v2 > 10 <;> simp [h1, h2] <;> omega

/-- Witness for claim C10 at the concrete pair 3 ≤ 20. -/
theorem classify_monotone_witness :
    (3 : Int) ≤ 20 ∧
    ((classify 3 = "rain" → classify 20 = "rain") ∧
     (classify 20 = "no rain" → classify 3 = "no rain")) :=
  ⟨by decide, classify_monotone 3 20 (by decide)⟩

theorem linesOf_append (s t : List Event) :
    linesOf (s ++ t) = linesOf s ++ linesOf t := by
  simp [linesOf]

theorem delaysOf_append (s t : List Event) :
    delaysOf (s ++ t) = delaysOf s ++ delaysOf t := by
  simp [delaysOf]

/-- Claim C4: every loop iteration prints exactly one line per configured
sensor — `n` iterations of the single-sensor sketch print exactly `n` lines,
`n` iterations of the two-sensor sketch print exactly `2n` lines, and each
iteration's lines are exactly the raw line and/or the classification line of
that iteration's readings, whatever the readings are (so a reading equal to
the previous one is still reported). -/
theorem one_line_per_sensor_per_iter (reads : Nat → Int) (n : Nat) :
    (linesOf (runIters1 reads n)).length = n ∧
    (linesOf (runIters2 reads n)).length = 2 * n ∧
    linesOf (loopBody1 (reads n)) = [classify (reads n)] ∧
    linesOf (loopBody2 (reads (2 * n)) (reads (2 * n + 1))) =
      [printInt (reads (2 * n)), classify (reads (2 * n + 1))] := by
  refine ⟨?_, ?_, rfl, rfl⟩
  · induction n with
    | zero => rfl
    | succ k ih =>
      rw [runIters1, linesOf_append, List.length_append, ih]
      rfl
  · induction n with
    | zero => rfl
    | succ k ih =>
      rw [runIters2, linesOf_append, List.length_append, ih]
      have hb : (linesOf (loopBody2 (reads (2 * k)) (reads (2 * k + 1)))).length = 2 := rfl
      omega

/-- Claim C6: the delay after each report is a fixed constant, identical in
every iteration: each single-sensor iteration delays exactly 500 ms after its
report, and each two-sensor iteration delays exactly 100 ms after the raw
report and exactly 500 ms after the threshold report. -/
theorem fixed_delays (reads : Nat → Int) (n : Nat) :
    delaysOf (runIters1 reads n) = List.replicate n 500 ∧
    delaysOf (runIters2 reads n) = (List.replicate n [100, 500]).flatten ∧
    loopBody1 (reads n) = [Event.println (classify (reads n)), Event.delayMs 500] ∧
    loopBody2 (reads (2 * n)) (reads (2 * n + 1)) =
      [Event.println (printInt (reads (2 * n))), Event.delayMs 100,
       Event.println (classify (reads (2 * n + 1))), Event.delayMs 500] := by
  refine ⟨?_, ?_, rfl, rfl⟩
  · induction n with
    | zero => rfl
    | succ k ih =>
      rw [runIters1, delaysOf_append, ih, List.replicate_succ']
      rfl
  · induction n with
    | zero => rfl
    | succ k ih =>
      rw [runIters2, delaysOf_append, ih, List.replicate_succ', List.flatten_append]
      rfl

/-- Claim C7: the polling loop never terminates: after any `n` completed
iterations, iteration `n+1` runs (the trace strictly extends by that
iteration's events) and still emits its output line(s). -/
theorem loop_never_terminates (reads : Nat → Int) (n : Nat) :
    runIters1 reads (n + 1) = runIters1 reads n ++ loopBody1 (reads n) ∧
    runIters2 reads (n + 1) =
      runIters2 reads n ++ loopBody2 (reads (2 * n)) (reads (2 * n + 1)) ∧
    Event.println (classify (reads n)) ∈ loopBody1 (reads n) ∧
    Event.println (classify (reads (2 * n + 1))) ∈
      loopBody2 (reads (2 * n)) (reads (2 * n + 1)) := by
  refine ⟨rfl, rfl, ?_, ?_⟩ <;> simp [loopBody1, loopBody2]

theorem countBegin_runIters1 (reads : Nat → Int) (n : Nat) :
    (runIters1 reads n).countP isSerialBegin = 0 := by
  induction n with
  | zero => rfl
  | succ k ih =>
    rw [runIters1, List.countP_append, ih]
    rfl

theorem countBegin_runIters2 (reads : Nat → Int) (n : Nat) :
    (runIters2 reads n).countP isSerialBegin = 0 := by
  induction n with
  | zero => rfl
  | succ k ih =>
    rw [runIters2, List.countP_append, ih]
    rfl

/-- Claim C8: initialization opens the serial output at 9600 baud, happens
exactly once, and precedes every loop iteration: the full trace is the single
`Serial.begin(9600)` event followed by the loop events, the trace holds
exactly one begin event, and no loop iteration contains one (so nothing is
printed before initialization). -/
theorem setup_once_before_loop (reads : Nat → Int) (n : Nat) :
    trace1 reads n = Event.serialBegin 9600 :: runIters1 reads n ∧
    trace2 reads n = Event.serialBegin 9600 :: runIters2 reads n ∧
    (trace1 reads n).countP isSerialBegin = 1 ∧
    (trace2 reads n).countP isSerialBegin = 1 ∧
    (runIters1 reads n).countP isSerialBegin = 0 ∧
    (runIters2 reads n).countP isSerialBegin = 0 := by
  refine ⟨rfl, rfl, ?_, ?_, countBegin_runIters1 reads n, countBegin_runIters2 reads n⟩
  · show (setupEvents ++ runIters1 reads n).countP isSerialBegin = 1
    rw [List.countP_append, countBegin_runIters1 reads n]
    rfl
  · show (setupEvents ++ runIters2 reads n).countP isSerialBegin = 1
    rw [List.countP_append, countBegin_runIters2 reads n]
    rfl

/-- The events contributed by iteration `i` alone in a run of
`Water_level_rain_on-off.ino`: what iteration `i+1`'s trace adds past
iteration `i`'s trace. -/
def iterEvents1 (reads : Nat → Int) (i : Nat) : List Event :=
  (runIters1 reads (i + 1)).drop (runIters1 reads i).length

theorem iterEvents1_eq (reads : Nat → Int) (i : Nat) :
    iterEvents1 reads i = loopBody1 (reads i) := by
  unfold iterEvents1
  rw [runIters1]
  exact List.drop_left _ _

/-- Claim C9: the threshold classification is a pure function of the current
reading alone: whenever two iterations of two (possibly different) runs get
equal readings, they contribute identical events, and the single line an
iteration emits is determined by that iteration's reading only. -/
theorem classification_pure (reads reads' : Nat → Int) (i j : Nat)
    (h : reads i = reads' j) :
    iterEvents1 reads i = iterEvents1 reads' j ∧
    linesOf (iterEvents1 reads i) = [classify (reads i)] := by
  rw [iterEvents1_eq, iterEvents1_eq, h]
  exact ⟨rfl, rfl⟩

/-- A concrete read stream whose reading at iteration 2 is 7. -/
def sampleReadsA : Nat → Int := fun k => ([3, 42, 7].getD k 0 : Int)

/-- A concrete read stream whose reading at iteration 0 is 7. -/
def sampleReadsB : Nat → Int := fun k => ([7, 1].getD k 0 : Int)

/-- Witness for claim C9: iteration 2 of one run and iteration 0 of another
read the same value 7 and contribute identical events. -/
theorem classification_pure_witness :
    sampleReadsA 2 = sampleReadsB 0 ∧
    (iterEvents1 sampleReadsA 2 = iterEvents1 sampleReadsB 0 ∧
     linesOf (iterEvents1 sampleReadsA 2) = [classify (sampleReadsA 2)]) :=
  ⟨rfl, classification_pure sampleReadsA sampleReadsB 2 0 rfl⟩

/-- Claim C5: when the water-level reads of three consecutive iterations of
part_000 are 5, 15 and 10, the six lines printed are, in order, the three raw
photoresistor lines interleaved with the threshold lines "no rain", "rain",
"no rain". -/
theorem threshold_scenario (reads : Nat → Int)
    (h1 : reads 1 = 5) (h3 : reads 3 = 15) (h5 : reads 5 = 10) :
    linesOf (runIters2 reads 3) =
      [printInt (reads 0), "no rain", printInt (reads 2), "rain",
       printInt (reads 4), "no rain"] := by
  have hl : linesOf (runIters2 reads 3) =
      [printInt (reads 0), classify (reads 1), printInt (reads 2), classify (reads 3),
       printInt (reads 4), classify (reads 5)] := rfl
  rw [hl, h1, h3, h5]
  norm_num [classify]

/-- The concrete read stream of the C5 scenario: water-level reads 5, 15, 10. -/
def scenarioReads : Nat → Int := fun k => ([0, 5, 0, 15, 0, 10].getD k 0 : Int)

/-- Witness for claim C5 on the concrete scenario stream. -/
theorem threshold_scenario_witness :
    scenarioReads 1 = 5 ∧ scenarioReads 3 = 15 ∧ scenarioReads 5 = 10 ∧
    linesOf (runIters2 scenarioReads 3) =
      [printInt (scenarioReads 0), "no rain", printInt (scenarioReads 2), "rain",
       printInt (scenarioReads 4), "no rain"] :=
  ⟨rfl, rfl, rfl, threshold_scenario scenarioReads rfl rfl rfl⟩

/-- Claim C3 (code bug): part_000's two global declarations bind the single
identifier `sensorPin` to two distinct pins, so the declared names are not
distinct, and its two `analogRead` calls name the same identifier — under
every resolution of identifiers to pins the two sensors read the same
channel, not distinct ones.  The sequential order the claim describes does
hold: each iteration is the raw report and 100 ms delay, then the threshold
report and 500 ms delay. -/
theorem combined_sketch_channel_collision :
    ¬ (globalDecls.map Prod.fst).Nodup ∧ A1 ≠ A2 ∧
    (∀ env : String → Nat, ¬ (loopReadNames.map env).Nodup) ∧
    (∀ p w : Int, loopBody2 p w =
      [Event.println (printInt p), Event.delayMs 100,
       Event.println (classify w), Event.delayMs 500]) := by
  refine ⟨by decide, by decide, ?_, fun p w => rfl⟩
  intro env
  simp [loopReadNames]

end Weather
